import Mathlib

/-!
Verification of the catalog-template repository's core logic: a shallow
embedding in Lean 4 of the catalog synchronization and order-building
subsystem (Notion-backed catalog resolution with caching and retry,
constant-time secret comparison, key validation, tiered cart pricing with
versioned persisted state), together with theorems settling the spec claims.

Machine integers of the source (JS numbers) are modelled as `ℕ` for counts,
indices and timestamps and as `ℚ` for prices and currency amounts; JS string
falsiness (`!s`) is modelled as equality with `""`; `undefined`/`null` is
modelled with `Option`; thrown errors with `Except`.  Network calls and the
DOM are environment inputs threaded explicitly through state structures.
-/

/-- Cache TTL from `src/unnamed/part_002`: `60 * 60 * 1000` milliseconds. -/
def CACHE_TTL_MS : ℕ := 60 * 60 * 1000

/-! ### Secret comparator (`safeCompareSecret`, src/unnamed/part_002 lines 52-63)

Strings are modelled as their lists of character codes; `charCodeAt(i) || 0`
yields the code at `i`, or `0` past the end (zero padding). -/

/-- Shallow embedding of `safeCompareSecret`: the accumulator starts as the
length-mismatch flag, every index up to `max` length is scanned, and all
positional XOR mismatches are OR-combined; true only if the result is zero. -/
def safeCompareSecret (left right : List ℕ) : Bool :=
  let maxLength := max left.length right.length
  let lengthFlag : ℕ := if left.length = right.length then 0 else 1
  let mismatch := (List.range maxLength).foldl
    (fun acc i => acc ||| ((left.getD i 0) ^^^ (right.getD i 0))) lengthFlag
  mismatch == 0

/-- Character codes of a string (JS code units; Lean code points — the map is
injective, which is all the equality claims need). -/
def stringCodes (s : String) : List ℕ := s.data.map Char.toNat

/-- `safeCompareSecret` applied to two Lean strings. -/
def safeCompareSecretStr (left right : String) : Bool :=
  safeCompareSecret (stringCodes left) (stringCodes right)

/-! ### Cart/pricing engine (`src/src/services/notion.ts`, presupuesto script) -/

/-- A cart row (`ProductRow` in the source, minus the DOM element handles,
which carry no pricing state). -/
structure ProductRow where
  id : String
  name : String
  priceBase : ℚ
  priceX10 : ℚ
  priceX50 : ℚ
  priceX100 : ℚ
  qty : ℕ
deriving DecidableEq

structure PresupuestoItem where
  id : String
  name : String
  qty : ℕ
  unitPrice : ℚ
  baseUnitPrice : ℚ
  subtotal : ℚ
deriving DecidableEq

structure PresupuestoPayload where
  companyName : String
  companySlug : String
  items : List PresupuestoItem
  subtotal : ℚ
  discount : ℚ
  total : ℚ
deriving DecidableEq

/-- `getUnitPrice` (notion.ts lines 166-171): threshold ladder, highest first;
a zero tier price is skipped and lower thresholds are still checked. -/
def getUnitPrice (row : ProductRow) (qty : ℕ) : ℚ :=
  if 100 ≤ qty ∧ 0 < row.priceX100 then row.priceX100
  else if 50 ≤ qty ∧ 0 < row.priceX50 then row.priceX50
  else if 10 ≤ qty ∧ 0 < row.priceX10 then row.priceX10
  else row.priceBase

/-- `getSelectedRows`: the rows with positive quantity, in state order. -/
def getSelectedRows (state : List ProductRow) : List ProductRow :=
  state.filter (fun r => decide (0 < r.qty))

/-- One step of the `rows.map` pass of `buildPresupuestoPayload`, which builds
the items list while accumulating `total` (at tiered price) and `subtotal`
(at base price). -/
def presupuestoStep (acc : List PresupuestoItem × ℚ × ℚ) (row : ProductRow) :
    List PresupuestoItem × ℚ × ℚ :=
  let unitPrice := getUnitPrice row row.qty
  let lineSubtotal := (row.qty : ℚ) * unitPrice
  let lineBaseSubtotal := (row.qty : ℚ) * row.priceBase
  (acc.1 ++ [{ id := row.id, name := row.name, qty := row.qty, unitPrice := unitPrice,
               baseUnitPrice := row.priceBase, subtotal := lineSubtotal }],
   acc.2.1 + lineSubtotal, acc.2.2 + lineBaseSubtotal)

/-- `buildPresupuestoPayload` (notion.ts lines 193-229); company name/slug are
read from DOM data attributes and passed here as inputs. -/
def buildPresupuestoPayload (companyName companySlug : String)
    (state : List ProductRow) : Option PresupuestoPayload :=
  let rows := getSelectedRows state
  if rows.length = 0 then none
  else
    let folded := rows.foldl presupuestoStep ([], 0, 0)
    some { companyName := companyName, companySlug := companySlug,
           items := folded.1, subtotal := folded.2.2,
           discount := max 0 (folded.2.2 - folded.2.1), total := folded.2.1 }

/-! ### Key validation (`validateCompanyKeyForCurrentCatalog`, part_002 lines 507-537) -/

/-- JS `String.prototype.trim()`: drop whitespace from both ends.  (Defined
by structural recursion over the character list so that concrete instances
evaluate; Lean's own `String.trim` is an equivalent but non-reducing loop.) -/
def jsTrim (s : String) : String :=
  ⟨((s.data.dropWhile Char.isWhitespace).reverse.dropWhile Char.isWhitespace).reverse⟩

structure CompanyKeyCacheEntry where
  key : String
  timestamp : ℕ
deriving DecidableEq

/-- Environment of one `validateCompanyKeyForCurrentCatalog` call: env vars
(`""` models a missing/falsy value), the current company-key cache slot, the
clock, and the outcome of `getCompanyRecordBySlug` for the configured slug
(`.error` models the lookup throwing; the key is trimmed by `parseCompanyKey`). -/
structure KeyValidationState where
  token : String
  companiesDbId : String
  keyCache : Option CompanyKeyCacheEntry
  now : ℕ
  fetchedKey : Except Unit String

inductive KeyValidationError
  | configError
  | lookupError
deriving DecidableEq

/-- Result of a validation call: the boolean plus the key-cache slot after it. -/
structure KeyValidationOutcome where
  result : Bool
  keyCache : Option CompanyKeyCacheEntry
deriving DecidableEq

/-- Shallow embedding of `validateCompanyKeyForCurrentCatalog`. -/
def validateCompanyKeyForCurrentCatalog (st : KeyValidationState) (inputKey : String) :
    Except KeyValidationError KeyValidationOutcome :=
  let normalizedInputKey := jsTrim inputKey
  if normalizedInputKey = "" then .ok { result := false, keyCache := st.keyCache }
  else if st.token = "" ∨ st.companiesDbId = "" then .error .configError
  else
    let cachedFresh : Option CompanyKeyCacheEntry :=
      match st.keyCache with
      | some entry =>
        if st.now - entry.timestamp < CACHE_TTL_MS then some entry else none
      | none => none
    match cachedFresh with
    | some entry =>
      if entry.key = "" then .ok { result := false, keyCache := st.keyCache }
      else .ok { result := safeCompareSecretStr entry.key normalizedInputKey,
                 keyCache := st.keyCache }
    | none =>
      match st.fetchedKey with
      | .error _ => .error .lookupError
      | .ok key =>
        let newCache := some { key := key, timestamp := st.now : CompanyKeyCacheEntry }
        if key = "" then .ok { result := false, keyCache := newCache }
        else .ok { result := safeCompareSecretStr key normalizedInputKey,
                   keyCache := newCache }

/-! ### Catalog cache (`getCatalogData`, part_002 lines 388-500) -/

structure Company where
  id : String
  name : String
  slug : String
  url : String
  logo : String
deriving DecidableEq

structure Product where
  id : String
  name : String
  category : String
  price : ℚ
  priceX10 : ℚ
  priceX50 : ℚ
  priceX100 : ℚ
  description : String
  image : String
  company : Option Company
deriving DecidableEq

structure CatalogData where
  company : Option Company
  products : List Product
deriving DecidableEq

structure CatalogCacheEntry where
  data : CatalogData
  timestamp : ℕ
deriving DecidableEq

inductive CatalogError
  | configError
  | fetchError
deriving DecidableEq

/-- Environment of one `getCatalogData` call: env vars (`""` = missing), the
cache slot for the configured company slug, the clock, and the outcome of the
company/product resolution pipeline run on a miss (`.error` models any of its
thrown errors, e.g. company-not-found or exhausted retries). -/
structure CatalogFetchState where
  token : String
  dbId : String
  companiesDbId : String
  cacheEntry : Option CatalogCacheEntry
  now : ℕ
  fetchOutcome : Except Unit CatalogData

/-- The miss path of `getCatalogData`: run the resolution pipeline and store
the result in the cache only when products are available (part_002 490-497). -/
def fetchAndStore (st : CatalogFetchState) :
    Except CatalogError (CatalogData × Option CatalogCacheEntry) :=
  match st.fetchOutcome with
  | .error _ => .error .fetchError
  | .ok catalogData =>
    if 0 < catalogData.products.length then
      .ok (catalogData, some { data := catalogData, timestamp := st.now })
    else
      .ok (catalogData, st.cacheEntry)

/-- Shallow embedding of `getCatalogData`: returns the catalog data and the
cache slot after the call.  The cached entry is served only while it is fresh
and its product list is non-empty (part_002 lines 403-410). -/
def getCatalogData (st : CatalogFetchState) :
    Except CatalogError (CatalogData × Option CatalogCacheEntry) :=
  if st.token = "" ∨ st.dbId = "" ∨ st.companiesDbId = "" then .error .configError
  else
    match st.cacheEntry with
    | some cached =>
      if st.now - cached.timestamp < CACHE_TTL_MS ∧ 0 < cached.data.products.length then
        .ok (cached.data, st.cacheEntry)
      else fetchAndStore st
    | none => fetchAndStore st

/-! ### HTTP retry client (`fetchWithRetry`, part_002 lines 75-116) -/

/-- What one attempt of the loop body produces: an HTTP response with a status
code, or a transport-level exception (including the 5s abort). -/
inductive AttemptOutcome
  | response (status : ℕ)
  | exception
deriving DecidableEq

/-- Final outcome of `fetchWithRetry`: a returned response, or a throw
(the last transport error, or the generic max-retries error). -/
inductive FetchResult
  | response (status : ℕ)
  | failure
deriving DecidableEq

/-- `response.ok` of the Fetch API: status in the range 200-299. -/
def responseOk (status : ℕ) : Bool := decide (200 ≤ status ∧ status < 300)

/-- The statuses the loop retries on: 429 or any 5xx (part_002 line 99). -/
def retryableStatus (status : ℕ) : Bool := decide (status = 429 ∨ 500 ≤ status)

/-- An attempt outcome that keeps the loop going: a retryable status or an
exception. -/
def retryableFail : AttemptOutcome → Bool
  | .response status => !responseOk status && retryableStatus status
  | .exception => true

/-- The retry loop of `fetchWithRetry`, with `fuel = maxRetries - attempt`
remaining iterations.  Returns the result together with the list of backoff
delays (in ms) actually slept, in order.  The exception branch sleeps only
when `attempt < maxRetries - 1` (i.e. `0 < fuel`), while the retryable-status
branch sleeps unconditionally before `continue` — exactly as in the source. -/
def fetchGo (outcomes : ℕ → AttemptOutcome) : ℕ → ℕ → FetchResult × List ℕ
  | _, 0 => (.failure, [])
  | attempt, fuel + 1 =>
    match outcomes attempt with
    | .response status =>
      if responseOk status then (.response status, [])
      else if retryableStatus status then
        let rest := fetchGo outcomes (attempt + 1) fuel
        (rest.1, 2 ^ attempt * 1000 :: rest.2)
      else (.response status, [])
    | .exception =>
      if 0 < fuel then
        let rest := fetchGo outcomes (attempt + 1) fuel
        (rest.1, 2 ^ attempt * 1000 :: rest.2)
      else
        fetchGo outcomes (attempt + 1) fuel

/-- `fetchWithRetry outcomes maxRetries`: run the loop from attempt 0. -/
def fetchWithRetry (outcomes : ℕ → AttemptOutcome) (maxRetries : ℕ) :
    FetchResult × List ℕ :=
  fetchGo outcomes 0 maxRetries

/-! ### Field extraction (`getTextPropertyValue` / `getImagePropertyValue`,
part_002 lines 131-152) and company parsing/lookup (lines 273-365) -/

structure RichTextItem where
  plain_text : Option String := none
deriving DecidableEq

structure SelectValue where
  name : Option String := none
deriving DecidableEq

structure FormulaValue where
  string : Option String := none
deriving DecidableEq

structure UrlBox where
  url : Option String := none
deriving DecidableEq

structure NotionFile where
  file : Option UrlBox := none
  external : Option UrlBox := none
deriving DecidableEq

/-- The duck-typed property bag value: each field is `none` when absent (or
JS-nullish).  A present `title`/`rich_text` array is truthy even when empty. -/
structure Property where
  title : Option (List RichTextItem) := none
  rich_text : Option (List RichTextItem) := none
  select : Option SelectValue := none
  formula : Option FormulaValue := none
  url : Option String := none
  files : Option (List NotionFile) := none
deriving DecidableEq

/-- Shallow embedding of `getTextPropertyValue` (part_002 lines 131-141).
Note the source tests *presence* of `title`/`rich_text`/`select` (JS
truthiness of the container — an empty array is truthy), but *non-emptiness*
of the formula string and url (string truthiness). -/
def getTextPropertyValue : Option Property → String
  | none => ""
  | some property =>
    match property.title with
    | some items => ((items.head?).bind RichTextItem.plain_text).getD ""
    | none =>
      match property.rich_text with
      | some items => ((items.head?).bind RichTextItem.plain_text).getD ""
      | none =>
        match property.select with
        | some sel => sel.name.getD ""
        | none =>
          let formulaString := (property.formula.bind FormulaValue.string).getD ""
          if formulaString ≠ "" then formulaString
          else
            let urlString := property.url.getD ""
            if urlString ≠ "" then urlString else ""

/-- Shallow embedding of `getImagePropertyValue` (part_002 lines 143-152). -/
def getImagePropertyValue : Option Property → String
  | none => ""
  | some property =>
    let urlString := property.url.getD ""
    if urlString ≠ "" then urlString
    else
      match (property.files.getD []).head? with
      | none => ""
      | some firstFile =>
        (((firstFile.file.bind UrlBox.url).orElse
            (fun _ => firstFile.external.bind UrlBox.url)).getD "")

/-- A Notion page: id plus its property bag (`page.properties ?? {}`). -/
structure Page where
  id : String
  properties : Option (List (String × Property)) := none
deriving DecidableEq

/-- Property lookup by name in a page's bag (`p.Name`, `p['Client Slug']`, …). -/
def lookupProperty (page : Page) (propertyName : String) : Option Property :=
  ((page.properties.getD []).find? (fun kv => kv.1 == propertyName)).map (fun kv => kv.2)

/-- JS `a || b` on strings: `a` unless it is empty (falsy). -/
def strOr (a b : String) : String := if a = "" then b else a

/-- Shallow embedding of `parseCompany` (part_002 lines 273-309).  `slugify`
(NFD accent stripping, lowercasing, trimming, whitespace-to-hyphen — a JS
built-in based transform) is passed as a parameter. -/
def parseCompany (slugify : String → String) (page : Page) : Company :=
  let name := strOr (getTextPropertyValue (lookupProperty page "Name"))
    (strOr (getTextPropertyValue (lookupProperty page "Nombre"))
      (strOr (getTextPropertyValue (lookupProperty page "Company")) "Empresa"))
  let slug := strOr (getTextPropertyValue (lookupProperty page "Slug"))
    (strOr (getTextPropertyValue (lookupProperty page "slug"))
      (strOr (getTextPropertyValue (lookupProperty page "Client Slug"))
        (strOr (getTextPropertyValue (lookupProperty page "client-slug")) (slugify name))))
  let url := strOr (getTextPropertyValue (lookupProperty page "URL"))
    (strOr (getTextPropertyValue (lookupProperty page "Url"))
      (strOr (getTextPropertyValue (lookupProperty page "Website")) ""))
  let logo := strOr (getImagePropertyValue (lookupProperty page "Logo"))
    (strOr (getImagePropertyValue (lookupProperty page "logo"))
      (strOr (getImagePropertyValue (lookupProperty page "Image"))
        (strOr (getImagePropertyValue (lookupProperty page "Imagen")) "")))
  { id := page.id, name := name, slug := slugify slug, url := url, logo := logo }

/-- The ordered slug property candidates of `findCompanyPageBySlug`. -/
def slugPropertyCandidates : List String := ["Slug", "slug", "Client Slug", "client-slug"]

/-- Environment of `findCompanyPageBySlug`: the per-candidate filtered query
(`.error` models a thrown query; `.ok` carries `data.results`) and the result
of the paginated full scan of the companies table (`queryAllDatabasePages`). -/
structure CompanyLookupEnv where
  queryBySlugProperty : String → Except Unit (List Page)
  allPages : List Page

/-- The candidate loop (part_002 lines 330-345): first candidate whose query
succeeds with at least one result wins; errors and empty results are skipped. -/
def tryCandidateQueries (env : CompanyLookupEnv) : List String → Option Page
  | [] => none
  | propertyName :: rest =>
    match env.queryBySlugProperty propertyName with
    | .ok (page :: _) => some page
    | _ => tryCandidateQueries env rest

/-- The fallback-scan predicate (part_002 lines 350-356): the page's parsed
company matches when its re-slugified slug or name equals the normalized slug. -/
def companySlugMatches (slugify : String → String) (normalizedCompanySlug : String)
    (page : Page) : Bool :=
  let company := parseCompany slugify page
  (slugify company.slug == normalizedCompanySlug) ||
    (slugify company.name == normalizedCompanySlug)

/-- Shallow embedding of `findCompanyPageBySlug` (part_002 lines 323-365):
candidate filtered queries first, then a full-scan fallback; throws
(`.error ()`) when nothing matches. -/
def findCompanyPageBySlug (slugify : String → String) (env : CompanyLookupEnv)
    (companySlug : String) : Except Unit Page :=
  match tryCandidateQueries env slugPropertyCandidates with
  | some page => .ok page
  | none =>
    let normalizedCompanySlug := slugify companySlug
    match env.allPages.find? (companySlugMatches slugify normalizedCompanySlug) with
    | some page => .ok page
    | none => .error ()

/-! ### Versioned cart persistence (`loadQuantities`, notion.ts lines 113-139) -/

/-- `STORAGE_VERSION = 1` (a JS number, compared with `!==`). -/
def STORAGE_VERSION : ℚ := 1

/-- The stored schema-version marker as `Number(localStorage.getItem(...))`
sees it: absent (`null`, which `Number` maps to 0), a numeric string with the
given value, or a non-numeric string (`NaN`). -/
inductive VersionMarker
  | absent
  | numeric (value : ℚ)
  | nonNumeric
deriving DecidableEq

/-- The stored quantity snapshot: absent, unparsable JSON (throws), or a
parsed id-to-number object in insertion order. -/
inductive StoredQuantities
  | absent
  | invalid
  | parsed (entries : List (String × ℚ))
deriving DecidableEq

structure PresupuestoStorage where
  version : VersionMarker
  quantities : StoredQuantities
deriving DecidableEq

/-- `Number(storedVersion) || 0`: `null` and `NaN` (and `0` itself) give 0. -/
def readVersion : VersionMarker → ℚ
  | .absent => 0
  | .nonNumeric => 0
  | .numeric value => value

/-- Shallow embedding of `loadQuantities`: returns the quantity map (as an
assoc list) and the storage contents after the call.  A version mismatch
removes the quantity state and rewrites the marker; the catch branch (invalid
JSON) removes the quantity state only. -/
def loadQuantities (storage : PresupuestoStorage) :
    List (String × ℤ) × PresupuestoStorage :=
  let version := readVersion storage.version
  if version ≠ STORAGE_VERSION then
    ([], { version := .numeric STORAGE_VERSION, quantities := .absent })
  else
    match storage.quantities with
    | .absent => ([], storage)
    | .invalid => ([], { version := storage.version, quantities := .absent })
    | .parsed entries =>
      (entries.filterMap
        (fun e => if 0 < e.2 then some (e.1, ⌊e.2⌋) else none), storage)

/-! ### Concrete instances used by witnesses and counterexamples -/

/-- A row whose tier price exceeds its base price (allowed by the data model:
`priceX10 = 5` over `priceBase = 1`), selected with quantity 10. -/
def cexRowC1 : ProductRow :=
  { id := "p1", name := "Producto A", priceBase := 1, priceX10 := 5,
    priceX50 := 0, priceX100 := 0, qty := 10 }

/-- A row with an ordinary tier discount: base 10, `priceX10 = 8`, qty 12. -/
def witRowC1 : ProductRow :=
  { id := "p2", name := "Producto B", priceBase := 10, priceX10 := 8,
    priceX50 := 0, priceX100 := 0, qty := 12 }

/-- The payload `buildPresupuestoPayload` produces for `[witRowC1]`. -/
def witPayloadC1 : PresupuestoPayload :=
  { companyName := "Cliente", companySlug := "acme",
    items := [{ id := "p2", name := "Producto B", qty := 12, unitPrice := 8,
                baseUnitPrice := 10, subtotal := 96 }],
    subtotal := 120, discount := 24, total := 96 }

/-- The spec's pricing-ladder example row: base 10, `priceX10 = 0` (unset),
`priceX50 = 5`, `priceX100 = 3`. -/
def ladderRowC3 : ProductRow :=
  { id := "p3", name := "Producto C", priceBase := 10, priceX10 := 0,
    priceX50 := 5, priceX100 := 3, qty := 0 }

/-- A property record whose `title` is present but empty while its
`rich_text` holds the non-empty value "hello". -/
def cexPropertyC7 : Property :=
  { title := some [], rich_text := some [{ plain_text := some "hello" }] }

/-- A property record carrying only a select option name. -/
def witPropertyC7 : Property := { select := some { name := some "Cat" } }

/-- A companies-table page whose Slug property holds rich text "acme". -/
def witPageC8 : Page :=
  { id := "page-1",
    properties := some [("Slug", { rich_text := some [{ plain_text := some "acme" }] })] }

/-- A lookup environment where every candidate filtered query throws and the
full scan returns the single matching page. -/
def witEnvC8 : CompanyLookupEnv :=
  { queryBySlugProperty := fun _ => .error (), allPages := [witPageC8] }

/-- A validation-call state with a fresh cached key "secret". -/
def witKeyStateCached : KeyValidationState :=
  { token := "tok", companiesDbId := "db",
    keyCache := some { key := "secret", timestamp := 0 }, now := 1000,
    fetchedKey := .ok "secret" }

/-- A validation-call state with `NOTION_TOKEN` missing. -/
def witKeyStateNoConfig : KeyValidationState :=
  { token := "", companiesDbId := "db", keyCache := none, now := 0,
    fetchedKey := .ok "irrelevante" }

def witCatalogProduct : Product :=
  { id := "prod-1", name := "Taza", category := "", price := 5, priceX10 := 0,
    priceX50 := 0, priceX100 := 0, description := "", image := "", company := none }

def witCatalogData : CatalogData := { company := none, products := [witCatalogProduct] }

/-- A catalog-fetch state holding a fresh non-empty cache entry; the pipeline
outcome is an error, so only a cache hit can explain a successful result. -/
def witCatalogState : CatalogFetchState :=
  { token := "tok", dbId := "db", companiesDbId := "cdb",
    cacheEntry := some { data := witCatalogData, timestamp := 0 }, now := 1000,
    fetchOutcome := .error () }

/-- Stored cart state written under schema version 2, loaded by code
expecting version 1. -/
def witStorageC9 : PresupuestoStorage :=
  { version := .numeric 2, quantities := .parsed [("prod-1", 3)] }

/-! ### Helper lemmas -/

theorem nat_lor_eq_zero_iff {x y : ℕ} : x ||| y = 0 ↔ x = 0 ∧ y = 0 := by
  constructor
  · intro h
    constructor
    · apply Nat.eq_of_testBit_eq
      intro i
      have hb : (x ||| y).testBit i = Nat.testBit 0 i := by rw [h]
      simp only [Nat.testBit_or, Nat.zero_testBit, Bool.or_eq_false_iff] at hb
      simp [hb.1]
    · apply Nat.eq_of_testBit_eq
      intro i
      have hb : (x ||| y).testBit i = Nat.testBit 0 i := by rw [h]
      simp only [Nat.testBit_or, Nat.zero_testBit, Bool.or_eq_false_iff] at hb
      simp [hb.2]
  · rintro ⟨rfl, rfl⟩
    simp

theorem foldl_lor_eq_zero_iff (f : ℕ → ℕ) :
    ∀ (l : List ℕ) (init : ℕ),
      (l.foldl (fun acc i => acc ||| f i) init = 0 ↔ init = 0 ∧ ∀ i ∈ l, f i = 0) := by
  intro l
  induction l with
  | nil => intro init; simp
  | cons a l ih =>
    intro init
    simp only [List.foldl_cons, List.mem_cons]
    rw [ih, nat_lor_eq_zero_iff]
    constructor
    · rintro ⟨⟨h1, h2⟩, h3⟩
      exact ⟨h1, fun i hi => hi.elim (fun e => e ▸ h2) (h3 i)⟩
    · rintro ⟨h1, h2⟩
      exact ⟨⟨h1, h2 a (Or.inl rfl)⟩, fun i hi => h2 i (Or.inr hi)⟩

theorem safeCompareSecret_eq_true_iff (a b : List ℕ) :
    safeCompareSecret a b = true ↔ a = b := by
  simp only [safeCompareSecret, beq_iff_eq]
  rw [foldl_lor_eq_zero_iff]
  constructor
  · rintro ⟨hlen, hall⟩
    have hlen' : a.length = b.length := by
      by_contra hne
      simp [hne] at hlen
    apply List.ext_getElem?
    intro n
    by_cases hn : n < a.length
    · have hnb : n < b.length := hlen' ▸ hn
      have hmem : n ∈ List.range (max a.length b.length) :=
        List.mem_range.mpr (lt_of_lt_of_le hn (le_max_left _ _))
      have hx := hall n hmem
      rw [Nat.xor_eq_zero] at hx
      have ha' : a.getD n 0 = a[n] := by
        simp [List.getD_eq_getElem?_getD, List.getElem?_eq_getElem hn]
      have hb' : b.getD n 0 = b[n] := by
        simp [List.getD_eq_getElem?_getD, List.getElem?_eq_getElem hnb]
      rw [List.getElem?_eq_getElem hn, List.getElem?_eq_getElem hnb]
      rw [ha', hb'] at hx
      rw [hx]
    · have hnb : ¬ n < b.length := by rw [← hlen']; exact hn
      rw [List.getElem?_eq_none (le_of_not_lt hn), List.getElem?_eq_none (le_of_not_lt hnb)]
  · rintro rfl
    exact ⟨by simp, fun i _ => by simp⟩

theorem stringCodes_inj {s t : String} (h : stringCodes s = stringCodes t) : s = t := by
  have hinj : Function.Injective Char.toNat := by
    intro c d hcd
    exact Char.eq_of_val_eq (UInt32.toNat.inj hcd)
  exact String.ext (List.map_injective_iff.mpr hinj h)

theorem safeCompareSecretStr_eq_true_iff (a b : String) :
    safeCompareSecretStr a b = true ↔ a = b := by
  unfold safeCompareSecretStr
  rw [safeCompareSecret_eq_true_iff]
  constructor
  · exact stringCodes_inj
  · rintro rfl; rfl

theorem foldl_presupuestoStep_total (rows : List ProductRow) :
    ∀ acc : List PresupuestoItem × ℚ × ℚ,
      (rows.foldl presupuestoStep acc).2.1 =
        acc.2.1 + (rows.map (fun r => (r.qty : ℚ) * getUnitPrice r r.qty)).sum := by
  induction rows with
  | nil => intro acc; simp
  | cons r rows ih =>
    intro acc
    simp only [List.foldl_cons, List.map_cons, List.sum_cons]
    rw [ih]
    simp only [presupuestoStep]
    ring

theorem foldl_presupuestoStep_subtotal (rows : List ProductRow) :
    ∀ acc : List PresupuestoItem × ℚ × ℚ,
      (rows.foldl presupuestoStep acc).2.2 =
        acc.2.2 + (rows.map (fun r => (r.qty : ℚ) * r.priceBase)).sum := by
  induction rows with
  | nil => intro acc; simp
  | cons r rows ih =>
    intro acc
    simp only [List.foldl_cons, List.map_cons, List.sum_cons]
    rw [ih]
    simp only [presupuestoStep]
    ring

theorem tryCandidateQueries_eq_none (env : CompanyLookupEnv) :
    ∀ cs : List String,
      (∀ c ∈ cs, env.queryBySlugProperty c = .error () ∨ env.queryBySlugProperty c = .ok []) →
      tryCandidateQueries env cs = none := by
  intro cs
  induction cs with
  | nil => intro _; rfl
  | cons c rest ih =>
    intro h
    have hrest := ih (fun x hx => h x (List.mem_cons_of_mem c hx))
    cases h c (List.mem_cons_self c rest) with
    | inl he => simp [tryCandidateQueries, he, hrest]
    | inr he => simp [tryCandidateQueries, he, hrest]

theorem fetchGo_stops (outcomes : ℕ → AttemptOutcome) :
    ∀ (k attempt fuel : ℕ), k < fuel →
      (∀ j, j < k → retryableFail (outcomes (attempt + j)) = true) →
      retryableFail (outcomes (attempt + k)) = false →
      (fetchGo outcomes attempt fuel).2 =
        (List.range' attempt k).map (fun i => 2 ^ i * 1000) := by
  intro k
  induction k with
  | zero =>
    intro attempt fuel hk _ hstop
    obtain ⟨f, rfl⟩ : ∃ f, fuel = f + 1 := ⟨fuel - 1, by omega⟩
    rw [Nat.add_zero] at hstop
    cases houtcome : outcomes attempt with
    | response status =>
      rw [houtcome] at hstop
      simp only [List.range'_zero, List.map_nil]
      cases hok : responseOk status with
      | true => simp [fetchGo, houtcome, hok]
      | false =>
        cases hretry : retryableStatus status with
        | false => simp [fetchGo, houtcome, hok, hretry]
        | true => simp [retryableFail, hok, hretry] at hstop
    | exception =>
      rw [houtcome] at hstop
      simp [retryableFail] at hstop
  | succ k ih =>
    intro attempt fuel hk hfail hstop
    obtain ⟨f, rfl⟩ : ∃ f, fuel = f + 1 := ⟨fuel - 1, by omega⟩
    have h0 : retryableFail (outcomes attempt) = true := by
      have h := hfail 0 (Nat.succ_pos k)
      rwa [Nat.add_zero] at h
    have hkf : k < f := by omega
    have hshift : ∀ j, j < k → retryableFail (outcomes (attempt + 1 + j)) = true := by
      intro j hj
      have h := hfail (j + 1) (by omega)
      rwa [show attempt + (j + 1) = attempt + 1 + j by omega] at h
    have hstop' : retryableFail (outcomes (attempt + 1 + k)) = false := by
      rwa [show attempt + (k + 1) = attempt + 1 + k by omega] at hstop
    have ihapp := ih (attempt + 1) f hkf hshift hstop'
    rw [List.range'_succ]
    cases houtcome : outcomes attempt with
    | response status =>
      rw [houtcome] at h0
      have hok : responseOk status = false := by
        cases hok : responseOk status
        · rfl
        · simp [retryableFail, hok] at h0
      have hretry : retryableStatus status = true := by
        cases hr : retryableStatus status
        · simp [retryableFail, hok, hr] at h0
        · rfl
      simp [fetchGo, houtcome, hok, hretry, ihapp]
    | exception =>
      have hfpos : 0 < f := by omega
      simp [fetchGo, houtcome, hfpos, ihapp]

theorem fetchGo_step_response (outcomes : ℕ → AttemptOutcome) (attempt fuel status : ℕ)
    (houtcome : outcomes attempt = .response status)
    (hok : responseOk status = false) (hretry : retryableStatus status = true) :
    fetchGo outcomes attempt (fuel + 1) =
      ((fetchGo outcomes (attempt + 1) fuel).1,
        2 ^ attempt * 1000 :: (fetchGo outcomes (attempt + 1) fuel).2) := by
  simp [fetchGo, houtcome, hok, hretry]

theorem fetchGo_step_exception (outcomes : ℕ → AttemptOutcome) (attempt fuel : ℕ)
    (houtcome : outcomes attempt = .exception) (hfuel : 0 < fuel) :
    fetchGo outcomes attempt (fuel + 1) =
      ((fetchGo outcomes (attempt + 1) fuel).1,
        2 ^ attempt * 1000 :: (fetchGo outcomes (attempt + 1) fuel).2) := by
  simp [fetchGo, houtcome, hfuel]

theorem fetchGo_all_fail (outcomes : ℕ → AttemptOutcome) :
    ∀ (f attempt : ℕ),
      (∀ j, j < f + 1 → retryableFail (outcomes (attempt + j)) = true) →
      ((outcomes (attempt + f) ≠ .exception →
         (fetchGo outcomes attempt (f + 1)).2 =
           (List.range' attempt (f + 1)).map (fun i => 2 ^ i * 1000)) ∧
       (outcomes (attempt + f) = .exception →
         (fetchGo outcomes attempt (f + 1)).2 =
           (List.range' attempt f).map (fun i => 2 ^ i * 1000))) := by
  intro f
  induction f with
  | zero =>
    intro attempt hfail
    have h0 : retryableFail (outcomes attempt) = true := by
      have h := hfail 0 Nat.zero_lt_one
      rwa [Nat.add_zero] at h
    rw [Nat.add_zero]
    constructor
    · intro hne
      cases houtcome : outcomes attempt with
      | response status =>
        rw [houtcome] at h0
        have hok : responseOk status = false := by
          cases hok : responseOk status
          · rfl
          · simp [retryableFail, hok] at h0
        have hretry : retryableStatus status = true := by
          cases hr : retryableStatus status
          · simp [retryableFail, hok, hr] at h0
          · rfl
        simp [fetchGo, houtcome, hok, hretry, List.range'_succ]
      | exception => exact absurd houtcome hne
    · intro hexc
      simp [fetchGo, hexc, List.range'_zero]
  | succ f ih =>
    intro attempt hfail
    have h0 : retryableFail (outcomes attempt) = true := by
      have h := hfail 0 (Nat.succ_pos _)
      rwa [Nat.add_zero] at h
    have hshift : ∀ j, j < f + 1 → retryableFail (outcomes (attempt + 1 + j)) = true := by
      intro j hj
      have h := hfail (j + 1) (by omega)
      rwa [show attempt + (j + 1) = attempt + 1 + j by omega] at h
    have ihapp := ih (attempt + 1) hshift
    have hlast : attempt + (f + 1) = attempt + 1 + f := by omega
    constructor
    · intro hne
      rw [hlast] at hne
      have htail := ihapp.1 hne
      rw [List.range'_succ, List.map_cons, ← htail]
      cases houtcome : outcomes attempt with
      | response status =>
        rw [houtcome] at h0
        have hok : responseOk status = false := by
          cases hok : responseOk status
          · rfl
          · simp [retryableFail, hok] at h0
        have hretry : retryableStatus status = true := by
          cases hr : retryableStatus status
          · simp [retryableFail, hok, hr] at h0
          · rfl
        rw [fetchGo_step_response outcomes attempt (f + 1) status houtcome hok hretry]
      | exception =>
        rw [fetchGo_step_exception outcomes attempt (f + 1) houtcome (Nat.succ_pos f)]
    · intro hexc
      rw [hlast] at hexc
      have htail := ihapp.2 hexc
      rw [List.range'_succ, List.map_cons, ← htail]
      cases houtcome : outcomes attempt with
      | response status =>
        rw [houtcome] at h0
        have hok : responseOk status = false := by
          cases hok : responseOk status
          · rfl
          · simp [retryableFail, hok] at h0
        have hretry : retryableStatus status = true := by
          cases hr : retryableStatus status
          · simp [retryableFail, hok, hr] at h0
          · rfl
        rw [fetchGo_step_response outcomes attempt (f + 1) status houtcome hok hretry]
      | exception =>
        rw [fetchGo_step_exception outcomes attempt (f + 1) houtcome (Nat.succ_pos f)]

/-! ### Claim theorems -/

/-- Claim C1 (amended).  For every payload built by `buildPresupuestoPayload`:
`discount = max(0, subtotal - total)`, `total` is the sum over selected rows
of qty times the tier-selected unit price, `subtotal` is the sum of qty times
base price, and `total = subtotal - discount` holds exactly whenever
`total ≤ subtotal`; but when a tier price exceeds the base price so that
`total > subtotal`, the discount is clamped to 0 and `total ≠ subtotal -
discount` (the claim's unrestricted identity fails there). -/
theorem buildPresupuestoPayload_discount_invariants (companyName companySlug : String)
    (state : List ProductRow) (payload : PresupuestoPayload)
    (h : buildPresupuestoPayload companyName companySlug state = some payload) :
    payload.discount = max 0 (payload.subtotal - payload.total) ∧
    payload.total =
      ((getSelectedRows state).map (fun r => (r.qty : ℚ) * getUnitPrice r r.qty)).sum ∧
    payload.subtotal =
      ((getSelectedRows state).map (fun r => (r.qty : ℚ) * r.priceBase)).sum ∧
    (payload.total ≤ payload.subtotal →
      payload.total = payload.subtotal - payload.discount) ∧
    (payload.subtotal < payload.total →
      payload.discount = 0 ∧ payload.total ≠ payload.subtotal - payload.discount) := by
  simp only [buildPresupuestoPayload] at h
  by_cases hrows : (getSelectedRows state).length = 0
  · simp [hrows] at h
  · rw [if_neg hrows, Option.some.injEq] at h
    subst h
    have htotal : ((getSelectedRows state).foldl presupuestoStep ([], 0, 0)).2.1 =
        ((getSelectedRows state).map (fun r => (r.qty : ℚ) * getUnitPrice r r.qty)).sum := by
      rw [foldl_presupuestoStep_total]
      simp
    have hsubtotal : ((getSelectedRows state).foldl presupuestoStep ([], 0, 0)).2.2 =
        ((getSelectedRows state).map (fun r => (r.qty : ℚ) * r.priceBase)).sum := by
      rw [foldl_presupuestoStep_subtotal]
      simp
    refine ⟨rfl, htotal, hsubtotal, ?_, ?_⟩
    · intro hle
      simp only at hle ⊢
      have hmax : max (0 : ℚ)
          (((getSelectedRows state).foldl presupuestoStep ([], 0, 0)).2.2 -
            ((getSelectedRows state).foldl presupuestoStep ([], 0, 0)).2.1) =
          ((getSelectedRows state).foldl presupuestoStep ([], 0, 0)).2.2 -
            ((getSelectedRows state).foldl presupuestoStep ([], 0, 0)).2.1 :=
        max_eq_right (by linarith)
      rw [hmax]
      ring
    · intro hlt
      simp only at hlt ⊢
      have hmax : max (0 : ℚ)
          (((getSelectedRows state).foldl presupuestoStep ([], 0, 0)).2.2 -
            ((getSelectedRows state).foldl presupuestoStep ([], 0, 0)).2.1) = 0 :=
        max_eq_left (by linarith)
      rw [hmax]
      constructor
      · rfl
      · intro heq
        rw [sub_zero] at heq
        exact absurd heq (by linarith)

/-- Claim C1 counterexample.  With a single selected row whose `priceX10 = 5`
exceeds its base price 1 at qty 10, the payload has `total = 50`,
`subtotal = 10`, `discount = 0`, and the claim's identity `total = subtotal -
discount` is false: `50 ≠ 10 - 0`. -/
theorem buildPresupuestoPayload_total_identity_cex :
    buildPresupuestoPayload "Cliente" "acme" [cexRowC1] =
      some { companyName := "Cliente", companySlug := "acme",
             items := [{ id := "p1", name := "Producto A", qty := 10, unitPrice := 5,
                         baseUnitPrice := 1, subtotal := 50 }],
             subtotal := 10, discount := 0, total := 50 } ∧
    (50 : ℚ) ≠ 10 - 0 := by
  constructor
  · norm_num [buildPresupuestoPayload, getSelectedRows, cexRowC1, presupuestoStep,
      getUnitPrice]
  · norm_num

/-- Witness for C1 at a concrete cart: one row with base 10, `priceX10 = 8`,
qty 12, whose payload is `witPayloadC1` (subtotal 120, discount 24, total 96). -/
theorem buildPresupuestoPayload_discount_invariants_witness :
    witPayloadC1.discount = max 0 (witPayloadC1.subtotal - witPayloadC1.total) ∧
    witPayloadC1.total =
      ((getSelectedRows [witRowC1]).map (fun r => (r.qty : ℚ) * getUnitPrice r r.qty)).sum ∧
    witPayloadC1.subtotal =
      ((getSelectedRows [witRowC1]).map (fun r => (r.qty : ℚ) * r.priceBase)).sum ∧
    (witPayloadC1.total ≤ witPayloadC1.subtotal →
      witPayloadC1.total = witPayloadC1.subtotal - witPayloadC1.discount) ∧
    (witPayloadC1.subtotal < witPayloadC1.total →
      witPayloadC1.discount = 0 ∧
        witPayloadC1.total ≠ witPayloadC1.subtotal - witPayloadC1.discount) :=
  buildPresupuestoPayload_discount_invariants "Cliente" "acme" [witRowC1] witPayloadC1
    (by norm_num [buildPresupuestoPayload, getSelectedRows, witRowC1, witPayloadC1,
      presupuestoStep, getUnitPrice])

/-- Claim C2.  `safeCompareSecret` returns true exactly when the two strings
are identical; in particular `compare(s, s) = true` and
`compare(s, s ++ "x") = false`.  The scan over every index up to the longer
length with zero padding, OR-combining positional mismatches and the
length-mismatch flag and accepting only a zero accumulator, is the definition
`safeCompareSecret` itself. -/
theorem safeCompareSecret_true_iff_eq (a b : String) :
    (safeCompareSecretStr a b = true ↔ a = b) ∧
    safeCompareSecretStr a a = true ∧
    safeCompareSecretStr a (a ++ "x") = false := by
  refine ⟨safeCompareSecretStr_eq_true_iff a b,
    (safeCompareSecretStr_eq_true_iff a a).mpr rfl, ?_⟩
  cases h : safeCompareSecretStr a (a ++ "x")
  · rfl
  · exfalso
    have heq := (safeCompareSecretStr_eq_true_iff a (a ++ "x")).mp h
    have hlen := congrArg String.length heq
    have hx : ("x" : String).length = 1 := rfl
    rw [String.length_append, hx] at hlen
    omega

/-- Claim C3.  `getUnitPrice` is the threshold ladder, highest threshold
first: `priceX100` when `qty ≥ 100` and it is positive, else `priceX50` when
`qty ≥ 50` and it is positive, else `priceX10` when `qty ≥ 10` and it is
positive, else the base price — a zero tier is skipped and lower thresholds
are still checked. -/
theorem getUnitPrice_threshold_ladder (row : ProductRow) (qty : ℕ) :
    ((100 ≤ qty ∧ 0 < row.priceX100) → getUnitPrice row qty = row.priceX100) ∧
    (¬ (100 ≤ qty ∧ 0 < row.priceX100) → (50 ≤ qty ∧ 0 < row.priceX50) →
      getUnitPrice row qty = row.priceX50) ∧
    (¬ (100 ≤ qty ∧ 0 < row.priceX100) → ¬ (50 ≤ qty ∧ 0 < row.priceX50) →
      (10 ≤ qty ∧ 0 < row.priceX10) → getUnitPrice row qty = row.priceX10) ∧
    (¬ (100 ≤ qty ∧ 0 < row.priceX100) → ¬ (50 ≤ qty ∧ 0 < row.priceX50) →
      ¬ (10 ≤ qty ∧ 0 < row.priceX10) → getUnitPrice row qty = row.priceBase) := by
  refine ⟨fun h => ?_, fun h1 h2 => ?_, fun h1 h2 h3 => ?_, fun h1 h2 h3 => ?_⟩ <;>
    simp [getUnitPrice, *]

/-- Witness for C3 at the spec's example row (base 10, `priceX10 = 0`,
`priceX50 = 5`, `priceX100 = 3`): qty 60 selects 5 (the zero `priceX10` tier
is skipped, not a fall-through to base) and qty 5 selects the base 10. -/
theorem getUnitPrice_threshold_ladder_witness :
    getUnitPrice ladderRowC3 60 = 5 ∧ getUnitPrice ladderRowC3 5 = 10 :=
  ⟨(getUnitPrice_threshold_ladder ladderRowC3 60).2.1 (by decide) (by decide),
   (getUnitPrice_threshold_ladder ladderRowC3 5).2.2.2 (by decide) (by decide) (by decide)⟩

/-- Claim C9.  `loadQuantities` wipes on any version-marker mismatch —
including an absent marker (`Number(null) = 0`) and a non-numeric marker
(`NaN || 0 = 0`): the stored quantity state is removed, the marker is
rewritten to the current version, and the empty map is returned. -/
theorem loadQuantities_version_mismatch (storage : PresupuestoStorage) :
    (readVersion storage.version ≠ STORAGE_VERSION →
      loadQuantities storage =
        ([], { version := .numeric STORAGE_VERSION, quantities := .absent })) ∧
    (storage.version = .absent →
      loadQuantities storage =
        ([], { version := .numeric STORAGE_VERSION, quantities := .absent })) ∧
    (storage.version = .nonNumeric →
      loadQuantities storage =
        ([], { version := .numeric STORAGE_VERSION, quantities := .absent })) := by
  refine ⟨fun h => ?_, fun h => ?_, fun h => ?_⟩
  · simp [loadQuantities, h]
  · have hv : readVersion storage.version ≠ STORAGE_VERSION := by
      rw [h]; decide
    simp [loadQuantities, hv]
  · have hv : readVersion storage.version ≠ STORAGE_VERSION := by
      rw [h]; decide
    simp [loadQuantities, hv]

/-- Witness for C9: quantities stored under version 2 are discarded when the
code expects version 1 — the result is the empty map and a wiped store. -/
theorem loadQuantities_version_mismatch_witness :
    loadQuantities witStorageC9 =
      ([], { version := .numeric STORAGE_VERSION, quantities := .absent }) :=
  (loadQuantities_version_mismatch witStorageC9).1 (by decide)

/-- Claim C4.  `validateCompanyKeyForCurrentCatalog` trims its input and
returns false for every input empty after trimming, regardless of the cached
or stored key; a non-empty trimmed input equal to the stored key (fresh
cached, or freshly resolved on a miss) returns true; and an empty cached or
resolved key always yields false (fail closed). -/
theorem validateCompanyKey_rules (st : KeyValidationState) (input : String) :
    (jsTrim input = "" →
      validateCompanyKeyForCurrentCatalog st input =
        .ok { result := false, keyCache := st.keyCache }) ∧
    (∀ entry, jsTrim input ≠ "" → st.token ≠ "" → st.companiesDbId ≠ "" →
      st.keyCache = some entry → st.now - entry.timestamp < CACHE_TTL_MS →
      ((entry.key = "" →
        validateCompanyKeyForCurrentCatalog st input =
          .ok { result := false, keyCache := st.keyCache }) ∧
       (entry.key = jsTrim input →
        validateCompanyKeyForCurrentCatalog st input =
          .ok { result := true, keyCache := st.keyCache }))) ∧
    (∀ key, jsTrim input ≠ "" → st.token ≠ "" → st.companiesDbId ≠ "" →
      (st.keyCache = none ∨
        ∀ entry, st.keyCache = some entry → ¬ st.now - entry.timestamp < CACHE_TTL_MS) →
      st.fetchedKey = .ok key →
      ((key = "" →
        validateCompanyKeyForCurrentCatalog st input =
          .ok { result := false,
                keyCache := some { key := key, timestamp := st.now } }) ∧
       (key = jsTrim input →
        validateCompanyKeyForCurrentCatalog st input =
          .ok { result := true,
                keyCache := some { key := key, timestamp := st.now } }))) := by
  refine ⟨fun h => ?_,
    fun entry hne htok hdb hcache hfresh => ⟨fun hkey => ?_, fun hkey => ?_⟩,
    fun key hne htok hdb hmiss hfetch => ⟨fun hkey => ?_, fun hkey => ?_⟩⟩
  · simp [validateCompanyKeyForCurrentCatalog, h]
  · simp [validateCompanyKeyForCurrentCatalog, hne, htok, hdb, hcache, hfresh, hkey]
  · have hkne : entry.key ≠ "" := by rw [hkey]; exact hne
    have hcmp : safeCompareSecretStr entry.key (jsTrim input) = true :=
      (safeCompareSecretStr_eq_true_iff _ _).mpr hkey
    simp [validateCompanyKeyForCurrentCatalog, hne, htok, hdb, hcache, hfresh, hkne, hcmp]
  · cases hcase : st.keyCache with
    | none =>
      simp [validateCompanyKeyForCurrentCatalog, hne, htok, hdb, hcase, hfetch, hkey]
    | some entry =>
      have hstale : ¬ st.now - entry.timestamp < CACHE_TTL_MS := by
        cases hmiss with
        | inl hnone => rw [hcase] at hnone; exact Option.noConfusion hnone
        | inr hall => exact hall entry hcase
      simp [validateCompanyKeyForCurrentCatalog, hne, htok, hdb, hcase, hstale, hfetch,
        hkey]
  · have hkne : key ≠ "" := by rw [hkey]; exact hne
    have hcmp : safeCompareSecretStr key (jsTrim input) = true :=
      (safeCompareSecretStr_eq_true_iff _ _).mpr hkey
    cases hcase : st.keyCache with
    | none =>
      simp [validateCompanyKeyForCurrentCatalog, hne, htok, hdb, hcase, hfetch, hkne, hcmp]
    | some entry =>
      have hstale : ¬ st.now - entry.timestamp < CACHE_TTL_MS := by
        cases hmiss with
        | inl hnone => rw [hcase] at hnone; exact Option.noConfusion hnone
        | inr hall => exact hall entry hcase
      simp [validateCompanyKeyForCurrentCatalog, hne, htok, hdb, hcase, hstale, hfetch,
        hkne, hcmp]

/-- Witness for C4: a fresh cached key "secret" validates the padded input
" secret " after trimming. -/
theorem validateCompanyKey_rules_witness :
    validateCompanyKeyForCurrentCatalog witKeyStateCached " secret " =
      .ok { result := true, keyCache := witKeyStateCached.keyCache } :=
  ((validateCompanyKey_rules witKeyStateCached " secret ").2.1
      { key := "secret", timestamp := 0 } (by decide) (by decide) (by decide) rfl
      (by decide)).2 (by decide)

/-- Claim C10.  The emptiness check on the trimmed input precedes the
credentials check: an empty-after-trim input returns false even when
`NOTION_TOKEN` or `NOTION_COMPANIES_DATABASE_ID` is missing, whereas a
non-empty input with missing credentials throws the configuration error
rather than returning a boolean. -/
theorem validateCompanyKey_empty_before_config (st : KeyValidationState) (input : String) :
    (jsTrim input = "" →
      validateCompanyKeyForCurrentCatalog st input =
        .ok { result := false, keyCache := st.keyCache }) ∧
    (jsTrim input ≠ "" → (st.token = "" ∨ st.companiesDbId = "") →
      validateCompanyKeyForCurrentCatalog st input = .error .configError) := by
  refine ⟨fun h => ?_, fun hne hcfg => ?_⟩
  · simp [validateCompanyKeyForCurrentCatalog, h]
  · simp only [validateCompanyKeyForCurrentCatalog]
    rw [if_neg hne, if_pos hcfg]

/-- Witness for C10: with `NOTION_TOKEN` missing, the blank input "   "
returns false while the non-empty input "clave" throws the config error. -/
theorem validateCompanyKey_empty_before_config_witness :
    validateCompanyKeyForCurrentCatalog witKeyStateNoConfig "   " =
      .ok { result := false, keyCache := witKeyStateNoConfig.keyCache } ∧
    validateCompanyKeyForCurrentCatalog witKeyStateNoConfig "clave" =
      .error .configError :=
  ⟨(validateCompanyKey_empty_before_config witKeyStateNoConfig "   ").1 (by decide),
   (validateCompanyKey_empty_before_config witKeyStateNoConfig "clave").2 (by decide)
     (Or.inl rfl)⟩

/-- Case analysis on the store step: `fetchAndStore` leaves the cache slot
unchanged unless the fetched product list is non-empty. -/
theorem fetchAndStore_cases (st : CatalogFetchState) (d : CatalogData)
    (c : Option CatalogCacheEntry) (h : fetchAndStore st = .ok (d, c)) :
    c = st.cacheEntry ∨
      (0 < d.products.length ∧ c = some { data := d, timestamp := st.now }) := by
  unfold fetchAndStore at h
  cases hf : st.fetchOutcome with
  | error e =>
    simp only [hf] at h
    exact Except.noConfusion h
  | ok data =>
    simp only [hf] at h
    by_cases hlen : 0 < data.products.length
    · rw [if_pos hlen, Except.ok.injEq, Prod.mk.injEq] at h
      obtain ⟨hd, hc⟩ := h
      subst hd
      exact Or.inr ⟨hlen, hc.symm⟩
    · rw [if_neg hlen, Except.ok.injEq, Prod.mk.injEq] at h
      exact Or.inl h.2.symm

/-- The store step when the pipeline yields `d`. -/
theorem fetchAndStore_eq_of_ok (st : CatalogFetchState) (d : CatalogData)
    (h : st.fetchOutcome = .ok d) :
    fetchAndStore st =
      .ok (d, if 0 < d.products.length
              then some { data := d, timestamp := st.now } else st.cacheEntry) := by
  unfold fetchAndStore
  simp only [h]
  by_cases hlen : 0 < d.products.length
  · rw [if_pos hlen, if_pos hlen]
  · rw [if_neg hlen, if_neg hlen]

/-- Claim C5.  `getCatalogData` stores a cache entry only when the fetched
product list is non-empty; with no usable entry it always re-fetches (so an
empty fetch is never served as a later hit); a non-empty entry is served
while strictly younger than the TTL and is re-fetched once its age reaches
the TTL. -/
theorem getCatalogData_cache_policy (st : CatalogFetchState) :
    (∀ d c, getCatalogData st = .ok (d, c) →
      c = st.cacheEntry ∨
        (0 < d.products.length ∧ c = some { data := d, timestamp := st.now })) ∧
    (∀ d, st.token ≠ "" → st.dbId ≠ "" → st.companiesDbId ≠ "" →
      st.cacheEntry = none → st.fetchOutcome = .ok d →
      getCatalogData st =
        .ok (d, if 0 < d.products.length
                then some { data := d, timestamp := st.now } else none)) ∧
    (∀ entry, st.token ≠ "" → st.dbId ≠ "" → st.companiesDbId ≠ "" →
      st.cacheEntry = some entry → 0 < entry.data.products.length →
      st.now - entry.timestamp < CACHE_TTL_MS →
      getCatalogData st = .ok (entry.data, st.cacheEntry)) ∧
    (∀ entry d, st.token ≠ "" → st.dbId ≠ "" → st.companiesDbId ≠ "" →
      st.cacheEntry = some entry → ¬ st.now - entry.timestamp < CACHE_TTL_MS →
      st.fetchOutcome = .ok d →
      getCatalogData st =
        .ok (d, if 0 < d.products.length
                then some { data := d, timestamp := st.now } else st.cacheEntry)) := by
  refine ⟨fun d c h => ?_, fun d htok hdb hcdb hnone hfetch => ?_,
    fun entry htok hdb hcdb hcache hlen hfresh => ?_,
    fun entry d htok hdb hcdb hcache hstale hfetch => ?_⟩
  · simp only [getCatalogData] at h
    by_cases hcfg : st.token = "" ∨ st.dbId = "" ∨ st.companiesDbId = ""
    · rw [if_pos hcfg] at h
      exact Except.noConfusion h
    · rw [if_neg hcfg] at h
      cases hcase : st.cacheEntry with
      | none =>
        simp only [hcase] at h
        have hcas := fetchAndStore_cases st d c h
        rw [hcase] at hcas
        exact hcas
      | some cached =>
        simp only [hcase] at h
        by_cases hhit : st.now - cached.timestamp < CACHE_TTL_MS ∧
            0 < cached.data.products.length
        · rw [if_pos hhit, Except.ok.injEq, Prod.mk.injEq] at h
          exact Or.inl h.2.symm
        · rw [if_neg hhit] at h
          have hcas := fetchAndStore_cases st d c h
          rw [hcase] at hcas
          exact hcas
  · have hcfg : ¬ (st.token = "" ∨ st.dbId = "" ∨ st.companiesDbId = "") := by
      simp [htok, hdb, hcdb]
    simp only [getCatalogData]
    rw [if_neg hcfg]
    simp only [hnone]
    rw [fetchAndStore_eq_of_ok st d hfetch, hnone]
  · have hcfg : ¬ (st.token = "" ∨ st.dbId = "" ∨ st.companiesDbId = "") := by
      simp [htok, hdb, hcdb]
    simp only [getCatalogData]
    rw [if_neg hcfg]
    simp only [hcache]
    rw [if_pos ⟨hfresh, hlen⟩]
  · have hcfg : ¬ (st.token = "" ∨ st.dbId = "" ∨ st.companiesDbId = "") := by
      simp [htok, hdb, hcdb]
    have hcond : ¬ (st.now - entry.timestamp < CACHE_TTL_MS ∧
        0 < entry.data.products.length) := fun hc => hstale hc.1
    simp only [getCatalogData]
    rw [if_neg hcfg]
    simp only [hcache]
    rw [if_neg hcond, fetchAndStore_eq_of_ok st d hfetch, hcache]

/-- Witness for C5: a fresh one-product cache entry is served as a hit even
though the pipeline outcome in the state is an error (no fetch happens). -/
theorem getCatalogData_cache_policy_witness :
    getCatalogData witCatalogState = .ok (witCatalogData, witCatalogState.cacheEntry) :=
  (getCatalogData_cache_policy witCatalogState).2.2.1
    { data := witCatalogData, timestamp := 0 } (by decide) (by decide) (by decide) rfl
    (by decide) (by decide)

/-- Claim C6 (amended).  In `fetchWithRetry` the backoff before the
`(i+1)`-th try after the `i`-th failed attempt is `2^i * 1000` ms, for every
pattern of retryable failures (HTTP 429, HTTP ≥ 500, or a transport
exception); but "no delay after the last attempt" holds only when the final
failure is a transport exception — when the final attempt fails with a
retryable HTTP status, the backoff `2^(maxRetries-1) * 1000` is still slept
before the error is raised. -/
theorem fetchWithRetry_backoff_schedule (outcomes : ℕ → AttemptOutcome)
    (maxRetries k f : ℕ) :
    (k < maxRetries → (∀ j, j < k → retryableFail (outcomes j) = true) →
      retryableFail (outcomes k) = false →
      (fetchWithRetry outcomes maxRetries).2 =
        (List.range k).map (fun i => 2 ^ i * 1000)) ∧
    (maxRetries = f + 1 → (∀ j, j < maxRetries → retryableFail (outcomes j) = true) →
      ((outcomes f ≠ .exception →
        (fetchWithRetry outcomes maxRetries).2 =
          (List.range maxRetries).map (fun i => 2 ^ i * 1000)) ∧
       (outcomes f = .exception →
        (fetchWithRetry outcomes maxRetries).2 =
          (List.range f).map (fun i => 2 ^ i * 1000)))) := by
  constructor
  · intro hk hfail hstop
    have h := fetchGo_stops outcomes k 0 maxRetries hk
      (fun j hj => by simpa using hfail j hj) (by simpa using hstop)
    unfold fetchWithRetry
    rw [h, List.range_eq_range']
  · intro hmr hfail
    subst hmr
    have h := fetchGo_all_fail outcomes f 0 (fun j hj => by simpa using hfail j hj)
    rw [Nat.zero_add] at h
    constructor
    · intro hne
      unfold fetchWithRetry
      rw [h.1 hne, List.range_eq_range']
    · intro hexc
      unfold fetchWithRetry
      rw [h.2 hexc, List.range_eq_range']

/-- Claim C6 counterexample.  With `maxRetries = 3` and every attempt failing
with HTTP 429, the backoffs actually slept are `[1000, 2000, 4000]` — a
third delay is performed after the final failed attempt, whereas the claim
predicts only `[1000, 2000]` (no delay after the last attempt). -/
theorem fetchWithRetry_final_backoff_cex :
    (fetchWithRetry (fun _ => AttemptOutcome.response 429) 3).2 = [1000, 2000, 4000] ∧
    (fetchWithRetry (fun _ => AttemptOutcome.response 429) 3).2 ≠ [1000, 2000] := by
  constructor
  · decide
  · decide

/-- Witness for C6: three attempts all failing with HTTP 503 sleep 1000 ms,
2000 ms and 4000 ms, the last after the final attempt. -/
theorem fetchWithRetry_backoff_schedule_witness :
    (fetchWithRetry (fun _ => AttemptOutcome.response 503) 3).2 =
      (List.range 3).map (fun i => 2 ^ i * 1000) :=
  ((fetchWithRetry_backoff_schedule (fun _ => AttemptOutcome.response 503) 3 0 2).2 rfl
    (by decide)).1 (by decide)

/-- Claim C7 (amended).  `getTextPropertyValue` gives priority to the first
present container among title, rich-text and select — returning its extracted
value even when that value is empty (a present-but-empty title masks the
later fields) — and only when those three are absent does it return the
formula string (when non-empty), else the URL (when non-empty), else "". -/
theorem getTextPropertyValue_presence_priority (property : Property) :
    (∀ items, property.title = some items →
      getTextPropertyValue (some property) =
        ((items.head?).bind RichTextItem.plain_text).getD "") ∧
    (property.title = none → ∀ items, property.rich_text = some items →
      getTextPropertyValue (some property) =
        ((items.head?).bind RichTextItem.plain_text).getD "") ∧
    (property.title = none → property.rich_text = none →
      ∀ sel, property.select = some sel →
      getTextPropertyValue (some property) = sel.name.getD "") ∧
    (property.title = none → property.rich_text = none → property.select = none →
      ∀ s, property.formula.bind FormulaValue.string = some s → s ≠ "" →
      getTextPropertyValue (some property) = s) ∧
    (property.title = none → property.rich_text = none → property.select = none →
      (property.formula.bind FormulaValue.string).getD "" = "" →
      ∀ u, property.url = some u → u ≠ "" →
      getTextPropertyValue (some property) = u) ∧
    (property.title = none → property.rich_text = none → property.select = none →
      (property.formula.bind FormulaValue.string).getD "" = "" →
      property.url.getD "" = "" →
      getTextPropertyValue (some property) = "") ∧
    getTextPropertyValue none = "" := by
  refine ⟨fun items ht => ?_, fun ht items hr => ?_, fun ht hr sel hs => ?_,
    fun ht hr hs s hf hne => ?_, fun ht hr hs hf u hu hune => ?_,
    fun ht hr hs hf hu => ?_, rfl⟩
  · simp [getTextPropertyValue, ht]
  · simp [getTextPropertyValue, ht, hr]
  · simp [getTextPropertyValue, ht, hr, hs]
  · have hfd : (property.formula.bind FormulaValue.string).getD "" = s := by
      rw [hf]; rfl
    simp [getTextPropertyValue, ht, hr, hs, hfd, hne]
  · simp [getTextPropertyValue, ht, hr, hs, hf, hu, hune]
  · simp [getTextPropertyValue, ht, hr, hs, hf, hu]

/-- Claim C7 counterexample.  A record whose title is present but empty and
whose rich-text holds "hello" yields "" — not the rich-text value "hello"
that the claim's first-non-empty rule predicts. -/
theorem getTextPropertyValue_empty_title_cex :
    getTextPropertyValue (some cexPropertyC7) = "" ∧
    getTextPropertyValue (some cexPropertyC7) ≠ "hello" := by
  constructor
  · decide
  · decide

/-- Witness for C7: with title, rich-text absent and a select present, the
select option name "Cat" is returned. -/
theorem getTextPropertyValue_presence_priority_witness :
    getTextPropertyValue (some witPropertyC7) = "Cat" :=
  (getTextPropertyValue_presence_priority witPropertyC7).2.2.1 rfl rfl
    { name := some "Cat" } rfl

/-- Claim C8.  When every candidate filtered slug query errors or returns no
result, `findCompanyPageBySlug` falls back to the full companies scan and
returns the first page whose normalized slug or normalized name equals the
normalized target slug; when no page matches it throws the company-not-found
error; and for every input it either returns a page or throws — never a
silent empty result. -/
theorem findCompanyPageBySlug_fallback_scan (slugify : String → String)
    (env : CompanyLookupEnv) (companySlug : String) :
    ((∀ c ∈ slugPropertyCandidates,
        env.queryBySlugProperty c = .error () ∨ env.queryBySlugProperty c = .ok []) →
      ((∀ page, env.allPages.find? (companySlugMatches slugify (slugify companySlug)) =
          some page → findCompanyPageBySlug slugify env companySlug = .ok page) ∧
       (env.allPages.find? (companySlugMatches slugify (slugify companySlug)) = none →
        findCompanyPageBySlug slugify env companySlug = .error ()))) ∧
    ((∃ page, findCompanyPageBySlug slugify env companySlug = .ok page) ∨
      findCompanyPageBySlug slugify env companySlug = .error ()) := by
  constructor
  · intro hall
    have hnone := tryCandidateQueries_eq_none env slugPropertyCandidates hall
    constructor
    · intro page hfind
      simp [findCompanyPageBySlug, hnone, hfind]
    · intro hfind
      simp [findCompanyPageBySlug, hnone, hfind]
  · cases hres : findCompanyPageBySlug slugify env companySlug with
    | ok page => exact Or.inl ⟨page, rfl⟩
    | error e => cases e; exact Or.inr rfl

/-- Witness for C8: all four candidate queries throw, and the fallback scan
recovers the page whose Slug rich text is "acme" for the target "acme". -/
theorem findCompanyPageBySlug_fallback_scan_witness :
    findCompanyPageBySlug (fun s => s) witEnvC8 "acme" = .ok witPageC8 :=
  (((findCompanyPageBySlug_fallback_scan (fun s => s) witEnvC8 "acme").1
    (fun c _ => Or.inl rfl)).1 witPageC8 (by decide))
